import Mathlib

/-!
# ActiveGroup: state derivation, click handling and sync of the active index

A shallow embedding of `src/ActiveGroup/ActiveGroup.js`.

* JavaScript values that reach `activeId`, `prevDefaultActive` and
  `props.defaultActive` are `undefined`, `null` or an integer (`JSVal`);
  `===` on them is structural equality.
* `props.children` is inspected by shape in the source (`!props.children`,
  `props.children.length === undefined`, otherwise an array); `Children`
  carries that shape as a tag.
* `console.error` / `console.warn` calls are returned as a list of
  `Diagnostic`s, in the order they are issued.
* A `TypeError` raised by the JavaScript runtime is the `Except` error case.
* `this.setState(patch)` and calls of a child's own `onClick` are returned
  as an ordered list of `Effect`s; `runEffects` merges the patches into the
  state the way React merges an object passed to `setState`.
-/

namespace ActiveGroup

/-- The values the active index and the external active signal take. -/
inductive JSVal where
  | undefined : JSVal
  | null : JSVal
  | num (n : Int) : JSVal
  deriving DecidableEq, Repr

/-- The value of `props.onClick` of a child: missing, a function (named so
that calls can be told apart) or some value that is not a function. -/
inductive OnClick where
  | absent : OnClick
  | fn (name : String) : OnClick
  | other (value : String) : OnClick
  deriving DecidableEq, Repr

/-- A React element as far as the group reads it: a name to tell elements
apart, `props.onClick` and `props.children`. The class docstring
assumes that each child has one nested child: `wrap` is an element with
one nested element, `leaf` one with `props.children === undefined`. -/
inductive Element where
  | leaf (name : String) (onClick : OnClick) : Element
  | wrap (name : String) (onClick : OnClick) (child : Element) : Element
  deriving DecidableEq, Repr

/-- Reads `element.props.onClick`. -/
def Element.onClick : Element → OnClick
  | .leaf _ h => h
  | .wrap _ h _ => h

/-- Reads `element.props.children` (`none` for `undefined`). -/
def Element.children : Element → Option Element
  | .leaf _ _ => none
  | .wrap _ _ c => some c

/-- The runtime shape of `props.children`. -/
inductive Children where
  | absent : Children
  | single (e : Element) : Children
  | seq (es : List Element) : Children
  deriving DecidableEq, Repr

/-- The props of the group. `noNesting` missing is `false`;
`defaultActive` missing is `JSVal.undefined`. -/
structure Props where
  children : Children
  noNesting : Bool
  defaultActive : JSVal
  customStyles : Option String
  customComponentStyles : Option String
  deriving DecidableEq, Repr

/-- One entry of the component map built by `generateComponentMap`. -/
structure Descriptor where
  id : Nat
  parent : Option Element
  component : Element
  onClick : OnClick
  deriving DecidableEq, Repr

/-- The component state: `components`, `activeId`, `prevDefaultActive`. -/
structure State where
  components : List Descriptor
  activeId : JSVal
  prevDefaultActive : JSVal
  deriving DecidableEq, Repr

/-- The class field `state = ...` a group is mounted with. -/
def initialState : State :=
  { components := [], activeId := .null, prevDefaultActive := .num 0 }

/-- The three console messages of the source. -/
inductive Diagnostic where
  | missingChildren : Diagnostic
  | singularChild : Diagnostic
  | ambiguousNesting : Diagnostic
  deriving DecidableEq, Repr

/-- A runtime `TypeError`. -/
inductive Fault where
  | typeError (what : String) : Fault
  deriving DecidableEq, Repr

/-- The object passed to `this.setState`: only the listed keys are written. -/
structure StatePatch where
  activeId : Option JSVal
  prevDefaultActive : Option JSVal
  deriving DecidableEq, Repr

/-- What an event handler does, in order. -/
inductive Effect where
  | invoke (callback : String) (arg : Element) : Effect
  | setState (patch : StatePatch) : Effect
  deriving DecidableEq, Repr

/-- `v || 0` for the values of `JSVal`: `undefined`, `null` and `0` are falsy. -/
def orZero : JSVal → JSVal
  | .undefined => .num 0
  | .null => .num 0
  | .num n => if n = 0 then .num 0 else .num n

/-- `component.id === v`. -/
def idEq (id : Nat) (v : JSVal) : Bool :=
  decide (v = .num (id : Int))

/-- The callback of `children.map` in `generateComponentMap`: the
descriptor of `link` at position `componentPos`, with the warning it may
issue. -/
def mapChild (noNesting : Bool) (link : Element) (componentPos : Nat) :
    List Diagnostic × Descriptor :=
  let parent : Option Element := if noNesting then none else some link
  let component : Option Element := if noNesting then some link else link.children
  match component with
  | some c =>
      ([], { id := componentPos, parent := parent, component := c, onClick := link.onClick })
  | none =>
      -- `component.component = component.parent; component.parent = null`;
      -- this branch is only reached with `noNesting` false, where the parent is `link`
      ([.ambiguousNesting],
        { id := componentPos, parent := none, component := link, onClick := link.onClick })

/-- `children.map(callback)` from position `start` on: warnings in order,
descriptors in order. -/
def mapChildren (noNesting : Bool) : List Element → Nat → List Diagnostic × List Descriptor
  | [], _ => ([], [])
  | link :: rest, start =>
      let here := mapChild noNesting link start
      let more := mapChildren noNesting rest (start + 1)
      (here.1 ++ more.1, here.2 :: more.2)

/-- `ActiveGroup.generateComponentMap(props)`: `children.map` exists only
on an array. -/
def generateComponentMap (props : Props) : Except Fault (List Diagnostic × List Descriptor) :=
  match props.children with
  | .seq es => .ok (mapChildren props.noNesting es 0)
  | .absent => .error (.typeError "cannot read properties of undefined (reading map)")
  | .single _ => .error (.typeError "children.map is not a function")

/-- `ActiveGroup.generateState(props, state)`: the diagnostics issued and
the returned object (`none` for `null`). -/
def generateState (props : Props) (state : State) :
    Except Fault (List Diagnostic × Option State) :=
  match props.children with
  | .absent => .ok ([.missingChildren], none)
  | .single _ => .ok ([.singularChild], none)
  | .seq es =>
      if es.length = 0 ∨ state.components.length > 0 then
        .ok ([], none)
      else
        match generateComponentMap props with
        | .error f => .error f
        | .ok (logs, components) =>
            .ok (logs, some
              { components := components
                activeId := orZero props.defaultActive
                prevDefaultActive := orZero props.defaultActive })

/-- `static getDerivedStateFromProps (props, state)`. -/
def getDerivedStateFromProps (props : Props) (state : State) :
    Except Fault (List Diagnostic × Option State) :=
  generateState props state

/-- React merges the object returned by `getDerivedStateFromProps` into
the state; `null` leaves it as it is. The returned object carries all three
keys of the state. -/
def mergeDerived (state : State) : Option State → State
  | none => state
  | some derived => derived

/-- The method `handleComponentClick(component)`. -/
def handleComponentClick (state : State) (component : Descriptor) : List Effect :=
  if idEq component.id state.activeId then
    []
  else
    (match component.onClick with
      | .fn f => [Effect.invoke f component.component]
      | _ => [])
    ++ [Effect.setState { activeId := some (.num (component.id : Int)), prevDefaultActive := none }]

/-- The method `deactivateGroup()`. -/
def deactivateGroup : List Effect :=
  [Effect.setState { activeId := some .null, prevDefaultActive := none }]

/-- The lifecycle method `componentDidUpdate()`. -/
def componentDidUpdate (props : Props) (state : State) : List Effect :=
  if props.defaultActive ≠ state.prevDefaultActive then
    [Effect.setState
      { activeId := some props.defaultActive, prevDefaultActive := some props.defaultActive }]
  else
    []

/-- Merge of a `setState` object into the state. -/
def applyPatch (state : State) (patch : StatePatch) : State :=
  { components := state.components
    activeId := patch.activeId.getD state.activeId
    prevDefaultActive := patch.prevDefaultActive.getD state.prevDefaultActive }

/-- The state after the effects of a handler. -/
def runEffects (state : State) : List Effect → State
  | [] => state
  | .invoke _ _ :: rest => runEffects state rest
  | .setState patch :: rest => runEffects (applyPatch state patch) rest

/-- The calls of child callbacks among the effects, in order. -/
def callTrace : List Effect → List (String × Element)
  | [] => []
  | .invoke f arg :: rest => (f, arg) :: callTrace rest
  | .setState _ :: rest => callTrace rest

/-- The state after a click on `component`. -/
def click (state : State) (component : Descriptor) : State :=
  runEffects state (handleComponentClick state component)

/-- The state after `deactivateGroup()`. -/
def deactivate (state : State) : State :=
  runEffects state deactivateGroup

/-- The state after the post-render sync pass. -/
def sync (props : Props) (state : State) : State :=
  runEffects state (componentDidUpdate props state)

/-- `React.cloneElement(component.component, newComponentProps)`. -/
structure ComponentClone where
  element : Element
  isActive : Bool
  customComponentStyles : Option String
  deriving DecidableEq, Repr

/-- `React.cloneElement(component.parent, ..., Component)`. -/
structure ParentClone where
  element : Element
  isActive : Bool
  child : ComponentClone
  deriving DecidableEq, Repr

/-- One `S.ComponentWrapper` of the rendered list. Its `onClick` calls
`handleComponentClick` with `target`; `parent` is `null` or the wrapper
clone, and the wrapper's child is `Parent || Component`. -/
structure WrapperNode where
  key : Nat
  isActive : Bool
  customComponentStyles : Option String
  target : Descriptor
  parent : Option ParentClone
  component : ComponentClone
  deriving DecidableEq, Repr

/-- The line `isActive = activeId !== undefined ? component.id === activeId : false`. -/
def isActiveOf (activeId : JSVal) (component : Descriptor) : Bool :=
  if activeId ≠ .undefined then idEq component.id activeId else false

/-- The callback of `components.map` in `render`. -/
def renderComponent (props : Props) (activeId : JSVal) (component : Descriptor) : WrapperNode :=
  let isActive := isActiveOf activeId component
  let clone : ComponentClone :=
    { element := component.component
      isActive := isActive
      customComponentStyles := props.customComponentStyles }
  let parent : Option ParentClone :=
    if props.noNesting then none
    else match component.parent with
      | none => none
      | some p => some { element := p, isActive := isActive, child := clone }
  { key := component.id
    isActive := isActive
    customComponentStyles := props.customComponentStyles
    target := component
    parent := parent
    component := clone }

/-- The method `render()`: the warnings of the fresh component map and the
list `Components` placed inside `S.ActiveGroupComponent`. -/
def render (props : Props) (state : State) : Except Fault (List Diagnostic × List WrapperNode) :=
  match generateComponentMap props with
  | .error f => .error f
  | .ok (logs, components) =>
      .ok (logs, components.map (renderComponent props state.activeId))

/-- A render pass: `getDerivedStateFromProps`, merge, then `render`. -/
def renderPass (props : Props) (state : State) :
    Except Fault (List Diagnostic × State × List WrapperNode) :=
  match getDerivedStateFromProps props state with
  | .error f => .error f
  | .ok (logs, derived) =>
      let next := mergeDerived state derived
      match render props next with
      | .error f => .error f
      | .ok (more, nodes) => .ok (logs ++ more, next, nodes)

/-! ## Concrete inputs -/

/-- A child with a click handler `f` wrapping one nested element. -/
def childA : Element := .wrap "A" (.fn "f") (.leaf "a" .absent)

/-- A child without a click handler wrapping one nested element. -/
def childB : Element := .wrap "B" .absent (.leaf "b" .absent)

/-- A child without a nested element. -/
def childC : Element := .leaf "C" .absent

/-- A group over `[A, B, C]` with `defaultActive = 1`. -/
def propsABC : Props :=
  { children := .seq [childA, childB, childC]
    noNesting := false
    defaultActive := .num 1
    customStyles := none
    customComponentStyles := none }

/-- The same group with `defaultActive` omitted. -/
def propsNoDefault : Props :=
  { propsABC with defaultActive := .undefined }

/-- The same group with five children. -/
def propsFive : Props :=
  { propsABC with children := .seq [childA, childB, childC, childB, childC] }

/-- The state of the group `propsABC` once populated. -/
def statePopulated : State :=
  { components := (mapChildren false [childA, childB, childC] 0).2
    activeId := .num 1
    prevDefaultActive := .num 1 }

/-- The descriptor of `childA` at position 0. -/
def descA : Descriptor :=
  (mapChild false childA 0).2

/-- The descriptor of `childB` at position 1. -/
def descB : Descriptor :=
  (mapChild false childB 1).2

/-! ## The life of a mounted group -/

/-- What can happen to a populated group: a click on the rendered child at a
position, the post-render sync pass run while `props.defaultActive` has the
given value, or a call of `deactivateGroup`. -/
inductive Op where
  | clickChild (pos : Nat) : Op
  | syncPass (defaultActive : JSVal) : Op
  | deactivateCall : Op
  deriving DecidableEq, Repr

/-- A click on the wrapper rendered at position `pos`: its `onClick` calls
`handleComponentClick` with the descriptor of the fresh component map. A
position without a rendered wrapper receives no click. -/
def clickAt (props : Props) (state : State) (pos : Nat) : State :=
  match render props state with
  | .error _ => state
  | .ok (_, nodes) =>
      match nodes[pos]? with
      | none => state
      | some node => click state node.target

/-- One operation on the props and state of a mounted group. -/
def step (ps : Props × State) : Op → Props × State
  | .clickChild pos => (ps.1, clickAt ps.1 ps.2 pos)
  | .syncPass d =>
      ({ ps.1 with defaultActive := d }, sync { ps.1 with defaultActive := d } ps.2)
  | .deactivateCall => (ps.1, deactivate ps.2)

/-- A sequence of operations, first to last. -/
def runOps (ps : Props × State) (ops : List Op) : Props × State :=
  ops.foldl step ps

/-- The sync pass of the operation sees an integer `defaultActive` that is
the position of one of `n` children; clicks and deactivation carry no
`defaultActive`. -/
def Op.inRange (n : Nat) : Op → Bool
  | .syncPass (.num m) => decide (0 ≤ m ∧ m < (n : Int))
  | .syncPass _ => false
  | .clickChild _ => true
  | .deactivateCall => true

/-- The `isActive` flags of the rendered wrappers, in order. -/
def activeVector (props : Props) (state : State) : Option (List Bool) :=
  match render props state with
  | .error _ => none
  | .ok (_, nodes) => some (nodes.map (fun node => node.isActive))

/-- The number of rendered wrappers with `isActive = true`. -/
def activeCount (props : Props) (state : State) : Option Nat :=
  (activeVector props state).map (fun flags => flags.count true)

/-- `activeId` is `null` or the id of a descriptor of the stored roster. -/
def activeIdInRoster (state : State) : Prop :=
  state.activeId = .null ∨ ∃ d ∈ state.components, state.activeId = .num (d.id : Int)

/-- `activeId` is `null` or the position of one of `n` children. -/
def activeIdBelow (n : Nat) (state : State) : Prop :=
  state.activeId = .null ∨ ∃ k : Nat, k < n ∧ state.activeId = .num (k : Int)

/-! ## A click on the mounted group -/

/-- What a callback is called with: the click event React passes to an
`onClick` prop of a rendered element, or the primary component
`handleComponentClick` passes. -/
inductive CallArg where
  | clickEvent : CallArg
  | component (e : Element) : CallArg
  deriving DecidableEq, Repr

/-- The innermost rendered node a click lands on: the cloned component, the
cloned parent around it, or the `S.ComponentWrapper` itself. -/
inductive ClickTarget where
  | onComponent : ClickTarget
  | onParent : ClickTarget
  | onWrapper : ClickTarget
  deriving DecidableEq, Repr

/-- The call React makes for an `onClick` prop of a rendered host element:
a function is called with the click event, anything else is not called. -/
def ownHandlerCalls : OnClick → List (String × CallArg)
  | .fn f => [(f, .clickEvent)]
  | _ => []

/-- The calls of the `onClick` props `render` leaves on the clones.
`React.cloneElement` keeps the props of the element it clones
(`...component.component.props`, `...component.parent.props`), `onClick`
included, so for children that are host elements the click bubbles through
them, innermost first, before it reaches the wrapper. A click on the parent
of a wrapper that has no parent clone is a click on the wrapper. -/
def ownCalls (node : WrapperNode) : ClickTarget → List (String × CallArg)
  | .onWrapper => []
  | .onParent =>
      (match node.parent with
        | some w => ownHandlerCalls w.element.onClick
        | none => [])
  | .onComponent =>
      ownHandlerCalls node.component.element.onClick ++
      (match node.parent with
        | some w => ownHandlerCalls w.element.onClick
        | none => [])

/-- A click on the child rendered at position `pos` of the mounted group:
all callback calls in order, those of the clones' own `onClick` props first
and those of the wrapper's `onClick={() => this.handleComponentClick(component)}`
last, and the state afterwards. -/
def mountedClick (props : Props) (state : State) (pos : Nat) (target : ClickTarget) :
    List (String × CallArg) × State :=
  match render props state with
  | .error _ => ([], state)
  | .ok (_, nodes) =>
      match nodes[pos]? with
      | none => ([], state)
      | some node =>
          (ownCalls node target ++
            (callTrace (handleComponentClick state node.target)).map
              (fun call => (call.1, CallArg.component call.2)),
            click state node.target)

end ActiveGroup

namespace ActiveGroup

/-! ## The component map -/

theorem mapChild_id (noNesting : Bool) (link : Element) (pos : Nat) :
    (mapChild noNesting link pos).2.id = pos := by
  unfold mapChild
  cases noNesting <;> cases link <;> rfl

theorem mapChildren_length (noNesting : Bool) (es : List Element) (start : Nat) :
    (mapChildren noNesting es start).2.length = es.length := by
  induction es generalizing start with
  | nil => rfl
  | cons e rest ih => simp [mapChildren, ih]

theorem mapChildren_ids (noNesting : Bool) (es : List Element) (start : Nat) :
    (mapChildren noNesting es start).2.map Descriptor.id = List.range' start es.length := by
  induction es generalizing start with
  | nil => rfl
  | cons e rest ih => simp [mapChildren, ih, mapChild_id, List.range']

theorem mapChildren_id_ge (noNesting : Bool) (es : List Element) (start : Nat)
    (d : Descriptor) (hd : d ∈ (mapChildren noNesting es start).2) : start ≤ d.id := by
  have h : d.id ∈ (mapChildren noNesting es start).2.map Descriptor.id :=
    List.mem_map_of_mem _ hd
  rw [mapChildren_ids] at h
  exact (List.mem_range'_1.mp h).1

theorem mapChildren_getElem? (noNesting : Bool) (es : List Element) (start i : Nat) :
    (mapChildren noNesting es start).2[i]? =
      (es[i]?).map (fun e => (mapChild noNesting e (start + i)).2) := by
  induction es generalizing start i with
  | nil => simp [mapChildren]
  | cons e rest ih =>
    cases i with
    | zero => simp [mapChildren]
    | succ k =>
      simp only [mapChildren, List.getElem?_cons_succ, ih]
      have : start + 1 + k = start + (k + 1) := by omega
      rw [this]

/-! ## The active flag -/

theorem isActiveOf_iff (activeId : JSVal) (d : Descriptor) :
    isActiveOf activeId d = true ↔ activeId = .num (d.id : Int) := by
  unfold isActiveOf idEq
  by_cases h : activeId = .undefined
  · subst h; simp
  · simp [h]

theorem countP_isActiveOf_of_lt (activeId : JSVal) (k : Nat) (h : activeId = .num (k : Int))
    (ds : List Descriptor) (hds : ∀ d ∈ ds, k < d.id) :
    ds.countP (isActiveOf activeId) = 0 := by
  rw [List.countP_eq_zero]
  intro d hd hact
  have h1 := (isActiveOf_iff activeId d).mp hact
  rw [h] at h1
  have h2 : (k : Int) = (d.id : Int) := by injection h1
  have h3 := hds d hd
  omega

theorem countP_isActiveOf_le_one (activeId : JSVal) (noNesting : Bool) (es : List Element)
    (start : Nat) :
    (mapChildren noNesting es start).2.countP (isActiveOf activeId) ≤ 1 := by
  induction es generalizing start with
  | nil => simp [mapChildren]
  | cons e rest ih =>
    simp only [mapChildren, List.countP_cons]
    by_cases hact : isActiveOf activeId (mapChild noNesting e start).2 = true
    · have h1 := (isActiveOf_iff activeId _).mp hact
      rw [mapChild_id] at h1
      have h0 := countP_isActiveOf_of_lt activeId start h1
        (mapChildren noNesting rest (start + 1)).2
        (fun d hd => mapChildren_id_ge noNesting rest (start + 1) d hd)
      simp [h0, hact]
    · simp only [hact]
      simpa using ih (start + 1)

theorem renderComponent_isActive (props : Props) (activeId : JSVal) (d : Descriptor) :
    (renderComponent props activeId d).isActive = isActiveOf activeId d := rfl

theorem renderComponent_target (props : Props) (activeId : JSVal) (d : Descriptor) :
    (renderComponent props activeId d).target = d := rfl

theorem render_seq (props : Props) (state : State) (es : List Element)
    (h : props.children = .seq es) :
    render props state =
      .ok ((mapChildren props.noNesting es 0).1,
        (mapChildren props.noNesting es 0).2.map (renderComponent props state.activeId)) := by
  simp [render, generateComponentMap, h]

end ActiveGroup

namespace ActiveGroup

/-! ## Render projection: at most one active descriptor -/

/-- C1: for every `activeId` and every children list, `render` succeeds with
one node per child; the node at position `i` carries the descriptor with id
`i`, its `isActive` is true exactly when `activeId` is the number `i` (so
never for `null` or `undefined`), the ids are pairwise distinct, and at most
one node is active. -/
theorem render_marks_at_most_one (activeId : JSVal) (props : Props) (state : State)
    (es : List Element) :
    ∃ logs nodes,
      render { props with children := .seq es } { state with activeId := activeId }
        = .ok (logs, nodes) ∧
      nodes.length = es.length ∧
      (∀ (i : Nat) (node : WrapperNode), nodes[i]? = some node →
        node.target.id = i ∧ node.key = i ∧
        (node.isActive = true ↔ activeId = .num (i : Int))) ∧
      (nodes.map (fun node => node.target.id)).Nodup ∧
      nodes.countP (fun node => node.isActive) ≤ 1 := by
  refine ⟨_, _, render_seq _ _ es rfl, ?_, ?_, ?_, ?_⟩
  · simp [mapChildren_length]
  · intro i node hnode
    rw [List.getElem?_map, mapChildren_getElem?] at hnode
    cases he : es[i]? with
    | none => simp [he] at hnode
    | some e =>
    simp only [he, Option.map_some', Option.some.injEq] at hnode
    subst hnode
    have hid : (mapChild props.noNesting e (0 + i)).2.id = i := by
      rw [mapChild_id]; omega
    refine ⟨?_, ?_, ?_⟩
    · simpa [renderComponent_target] using hid
    · simpa [renderComponent] using hid
    · rw [renderComponent_isActive, isActiveOf_iff, hid]
  · have h : (fun node : WrapperNode => node.target.id) ∘ renderComponent
        { props with children := .seq es } activeId = Descriptor.id := by
      funext d; rfl
    simp only [List.map_map]
    rw [h, mapChildren_ids]
    exact List.nodup_range' 0 es.length
  · have h : (fun node : WrapperNode => node.isActive) ∘ renderComponent
        { props with children := .seq es } activeId = isActiveOf activeId := by
      funext d; rfl
    rw [List.countP_map, h]
    exact countP_isActiveOf_le_one activeId _ es 0

end ActiveGroup

namespace ActiveGroup

/-! ## Population by `generateState` -/

theorem generateState_seq (props : Props) (state : State) (e : Element) (rest : List Element)
    (hc : props.children = .seq (e :: rest)) (hs : state.components = []) :
    generateState props state =
      .ok ((mapChildren props.noNesting (e :: rest) 0).1, some
        { components := (mapChildren props.noNesting (e :: rest) 0).2
          activeId := orZero props.defaultActive
          prevDefaultActive := orZero props.defaultActive }) := by
  simp [generateState, generateComponentMap, hc, hs]

theorem orZero_num (k : Int) : orZero (.num k) = .num k := by
  unfold orZero
  by_cases h : k = 0
  · simp [h]
  · simp [h]

/-- C2: for props whose children are a non-empty sequence and a state with
an empty roster, `generateState` returns the roster of
`generateComponentMap props`, with `activeId` and `prevDefaultActive` both
equal to `defaultActive` when it is an integer `k` (0 included) and both
equal to 0 when it is omitted. -/
theorem generateState_populates (props : Props) (state : State) (e : Element)
    (rest : List Element) (hc : props.children = .seq (e :: rest))
    (hs : state.components = []) :
    ∃ logs components,
      generateComponentMap props = .ok (logs, components) ∧
      components.length = (e :: rest).length ∧
      (∀ k : Int, props.defaultActive = .num k →
        generateState props state = .ok (logs, some
          { components := components, activeId := .num k, prevDefaultActive := .num k })) ∧
      (props.defaultActive = .undefined →
        generateState props state = .ok (logs, some
          { components := components, activeId := .num 0, prevDefaultActive := .num 0 })) := by
  refine ⟨(mapChildren props.noNesting (e :: rest) 0).1,
    (mapChildren props.noNesting (e :: rest) 0).2, ?_, ?_, ?_, ?_⟩
  · simp [generateComponentMap, hc]
  · exact mapChildren_length _ _ _
  · intro k hk
    rw [generateState_seq props state e rest hc hs, hk, orZero_num]
  · intro hu
    rw [generateState_seq props state e rest hc hs, hu]
    rfl

/-- Witness of C2 on `[A, B, C]` with `defaultActive = 1` from the mount state. -/
theorem generateState_populates_witness :
    propsABC.children = .seq (childA :: [childB, childC]) ∧
    initialState.components = [] ∧
    (∃ logs components,
      generateComponentMap propsABC = .ok (logs, components) ∧
      components.length = (childA :: [childB, childC]).length ∧
      (∀ k : Int, propsABC.defaultActive = .num k →
        generateState propsABC initialState = .ok (logs, some
          { components := components, activeId := .num k, prevDefaultActive := .num k })) ∧
      (propsABC.defaultActive = .undefined →
        generateState propsABC initialState = .ok (logs, some
          { components := components, activeId := .num 0, prevDefaultActive := .num 0 }))) ∧
    generateState propsABC initialState = .ok ([.ambiguousNesting], some statePopulated) :=
  ⟨rfl, rfl, generateState_populates propsABC initialState childA [childB, childC] rfl rfl,
    rfl⟩

/-! ## Clicks -/

theorem idEq_eq_true (id : Nat) (v : JSVal) : idEq id v = true ↔ v = .num (id : Int) := by
  simp [idEq]

theorem handleComponentClick_of_ne (state : State) (j : Descriptor)
    (h : state.activeId ≠ .num (j.id : Int)) :
    handleComponentClick state j =
      (match j.onClick with
        | .fn f => [Effect.invoke f j.component]
        | _ => [])
      ++ [Effect.setState
            { activeId := some (.num (j.id : Int)), prevDefaultActive := none }] := by
  have h1 : idEq j.id state.activeId = false := by
    simpa [idEq] using h
  simp [handleComponentClick, h1]

theorem handleComponentClick_of_eq (state : State) (j : Descriptor)
    (h : state.activeId = .num (j.id : Int)) :
    handleComponentClick state j = [] := by
  have h1 : idEq j.id state.activeId = true := (idEq_eq_true _ _).mpr h
  simp [handleComponentClick, h1]

theorem click_activeId (state : State) (j : Descriptor) :
    (click state j).activeId = .num (j.id : Int) := by
  by_cases h : state.activeId = .num (j.id : Int)
  · simp [click, handleComponentClick_of_eq state j h, runEffects, h]
  · rw [click, handleComponentClick_of_ne state j h]
    cases j.onClick <;> simp [runEffects, applyPatch]

/-- C3: a click on a descriptor `j` whose id is not the current `activeId`
calls `j.onClick` exactly once with `j.component` when it is a function and
then issues the state update; it calls nothing when `onClick` is absent (or
is not a function); the state afterwards has `activeId = j.id`. -/
theorem handleComponentClick_other_child (state : State) (j : Descriptor)
    (h : state.activeId ≠ .num (j.id : Int)) :
    (∀ f, j.onClick = .fn f →
      handleComponentClick state j =
        [Effect.invoke f j.component,
         Effect.setState { activeId := some (.num (j.id : Int)), prevDefaultActive := none }] ∧
      callTrace (handleComponentClick state j) = [(f, j.component)]) ∧
    ((j.onClick = .absent ∨ ∃ v, j.onClick = .other v) →
      handleComponentClick state j =
        [Effect.setState { activeId := some (.num (j.id : Int)), prevDefaultActive := none }] ∧
      callTrace (handleComponentClick state j) = []) ∧
    (click state j).activeId = .num (j.id : Int) := by
  refine ⟨?_, ?_, click_activeId state j⟩
  · intro f hf
    rw [handleComponentClick_of_ne state j h, hf]
    exact ⟨rfl, rfl⟩
  · intro habs
    rw [handleComponentClick_of_ne state j h]
    rcases habs with ha | ⟨v, hv⟩
    · rw [ha]; exact ⟨rfl, rfl⟩
    · rw [hv]; exact ⟨rfl, rfl⟩

/-- Witness of C3: a click on `A` (handler `f`) while child 1 is active. -/
theorem handleComponentClick_other_child_witness :
    statePopulated.activeId ≠ .num (descA.id : Int) ∧
    handleComponentClick statePopulated descA =
      [Effect.invoke "f" (.leaf "a" .absent),
       Effect.setState { activeId := some (.num 0), prevDefaultActive := none }] ∧
    (click statePopulated descA).activeId = .num 0 :=
  have h : statePopulated.activeId ≠ .num (descA.id : Int) := by decide
  ⟨h, ((handleComponentClick_other_child statePopulated descA h).1 "f" rfl).1,
    (handleComponentClick_other_child statePopulated descA h).2.2⟩

/-- C4: a click on the descriptor whose id is the current `activeId` has no
effect at all (no callback, no state update, the state is unchanged); and for
every state a second click on the same descriptor right after the first
changes nothing and adds no call to the callback trace. -/
theorem handleComponentClick_active_child (state : State) (j : Descriptor) :
    (state.activeId = .num (j.id : Int) →
      handleComponentClick state j = [] ∧
      callTrace (handleComponentClick state j) = [] ∧
      click state j = state) ∧
    click (click state j) j = click state j ∧
    callTrace (handleComponentClick state j ++ handleComponentClick (click state j) j)
      = callTrace (handleComponentClick state j) := by
  have h2 : handleComponentClick (click state j) j = [] :=
    handleComponentClick_of_eq _ j (click_activeId state j)
  refine ⟨?_, ?_, ?_⟩
  · intro h
    have h1 := handleComponentClick_of_eq state j h
    simp [click, h1, runEffects, callTrace]
  · show runEffects (click state j) (handleComponentClick (click state j) j) = click state j
    rw [h2]; rfl
  · rw [h2, List.append_nil]

/-- Witness of C4: a click on `B` while child 1 is active, and two clicks on `A`. -/
theorem handleComponentClick_active_child_witness :
    statePopulated.activeId = .num (descB.id : Int) ∧
    handleComponentClick statePopulated descB = [] ∧
    click statePopulated descB = statePopulated ∧
    click (click statePopulated descA) descA = click statePopulated descA :=
  ⟨rfl,
    ((handleComponentClick_active_child statePopulated descB).1 rfl).1,
    ((handleComponentClick_active_child statePopulated descB).1 rfl).2.2,
    (handleComponentClick_active_child statePopulated descA).2.1⟩

/-! ## The sync pass -/

theorem componentDidUpdate_of_ne (props : Props) (state : State)
    (h : props.defaultActive ≠ state.prevDefaultActive) :
    componentDidUpdate props state =
      [Effect.setState
        { activeId := some props.defaultActive
          prevDefaultActive := some props.defaultActive }] := by
  simp [componentDidUpdate, h]

theorem sync_of_ne (props : Props) (state : State)
    (h : props.defaultActive ≠ state.prevDefaultActive) :
    sync props state =
      { components := state.components
        activeId := props.defaultActive
        prevDefaultActive := props.defaultActive } := by
  simp [sync, componentDidUpdate_of_ne props state h, runEffects, applyPatch]

/-- C5: when `props.defaultActive` differs from the stored
`prevDefaultActive`, the sync pass sets both `activeId` and
`prevDefaultActive` to `props.defaultActive`, whatever `activeId` was. -/
theorem componentDidUpdate_follows_change (props : Props) (state : State)
    (h : props.defaultActive ≠ state.prevDefaultActive) :
    componentDidUpdate props state =
      [Effect.setState
        { activeId := some props.defaultActive
          prevDefaultActive := some props.defaultActive }] ∧
    (sync props state).activeId = props.defaultActive ∧
    (sync props state).prevDefaultActive = props.defaultActive ∧
    (sync props state).components = state.components := by
  refine ⟨componentDidUpdate_of_ne props state h, ?_, ?_, ?_⟩ <;>
    rw [sync_of_ne props state h]

/-- Witness of C5: `defaultActive` goes from 1 to 2 after a click had set
`activeId` to 0. -/
theorem componentDidUpdate_follows_change_witness :
    ({ propsABC with defaultActive := .num 2 } : Props).defaultActive
      ≠ (click statePopulated descA).prevDefaultActive ∧
    (click statePopulated descA).activeId = .num 0 ∧
    (sync { propsABC with defaultActive := .num 2 } (click statePopulated descA)).activeId
      = .num 2 ∧
    (sync { propsABC with defaultActive := .num 2 }
      (click statePopulated descA)).prevDefaultActive = .num 2 :=
  have h : ({ propsABC with defaultActive := .num 2 } : Props).defaultActive
      ≠ (click statePopulated descA).prevDefaultActive := by decide
  ⟨h, rfl,
    (componentDidUpdate_follows_change { propsABC with defaultActive := .num 2 }
      (click statePopulated descA) h).2.1,
    (componentDidUpdate_follows_change { propsABC with defaultActive := .num 2 }
      (click statePopulated descA) h).2.2.1⟩

end ActiveGroup

namespace ActiveGroup

/-! ## Click followed by the sync pass -/

theorem sync_of_eq (props : Props) (state : State)
    (h : props.defaultActive = state.prevDefaultActive) : sync props state = state := by
  simp [sync, componentDidUpdate, h, runEffects]

theorem click_prevDefaultActive (state : State) (j : Descriptor) :
    (click state j).prevDefaultActive = state.prevDefaultActive := by
  by_cases h : state.activeId = .num (j.id : Int)
  · simp [click, handleComponentClick_of_eq state j h, runEffects]
  · rw [click, handleComponentClick_of_ne state j h]
    cases j.onClick <;> simp [runEffects, applyPatch]

/-- With an integer `defaultActive`, a click survives the sync pass run with
the same props: the part of C6 the code satisfies. -/
theorem sync_keeps_click_integer_default (props : Props) (state : State) (e : Element)
    (rest : List Element) (k : Int) (j : Descriptor)
    (hc : props.children = .seq (e :: rest)) (hs : state.components = [])
    (hk : props.defaultActive = .num k) :
    ∃ logs populated,
      generateState props state = .ok (logs, some populated) ∧
      (sync props (click populated j)).activeId = .num (j.id : Int) := by
  refine ⟨_, _, generateState_seq props state e rest hc hs, ?_⟩
  rw [sync_of_eq, click_activeId]
  rw [click_prevDefaultActive, hk, orZero_num]

/-- With `defaultActive` omitted, the sync pass run with the same props
replaces a click-set `activeId` by `undefined`: population stores
`prevDefaultActive = 0` while `componentDidUpdate` compares it with the raw
`undefined`. -/
theorem sync_drops_click_omitted_default (props : Props) (state : State) (e : Element)
    (rest : List Element) (j : Descriptor)
    (hc : props.children = .seq (e :: rest)) (hs : state.components = [])
    (hu : props.defaultActive = .undefined) :
    ∃ logs populated,
      generateState props state = .ok (logs, some populated) ∧
      (click populated j).activeId = .num (j.id : Int) ∧
      (sync props (click populated j)).activeId = .undefined := by
  refine ⟨_, _, generateState_seq props state e rest hc hs, click_activeId _ j, ?_⟩
  have hne : props.defaultActive ≠
      (click { components := (mapChildren props.noNesting (e :: rest) 0).2
               activeId := orZero props.defaultActive
               prevDefaultActive := orZero props.defaultActive } j).prevDefaultActive := by
    rw [click_prevDefaultActive, hu]
    simp [orZero]
  rw [sync_of_ne props _ hne, hu]

/-- C6 at the failing input: the group `[A, B, C]` with `defaultActive`
omitted is populated with `activeId = 0`; a click on `B` sets `activeId = 1`;
the sync pass with the same props then leaves `activeId = undefined`, and the
next render marks no child active. -/
theorem sync_after_click_without_defaultActive :
    ∃ logs populated,
      generateState propsNoDefault initialState = .ok (logs, some populated) ∧
      populated.activeId = .num 0 ∧
      populated.prevDefaultActive = .num 0 ∧
      (click populated descB).activeId = .num 1 ∧
      (sync propsNoDefault (click populated descB)).activeId = .undefined ∧
      (render propsNoDefault (sync propsNoDefault (click populated descB))).toOption.map
        (fun out => out.2.map (fun node => node.isActive)) = some [false, false, false] :=
  ⟨_, _, rfl, rfl, rfl, rfl, rfl, rfl⟩

/-! ## The reconciler leaves a populated state alone -/

/-- C7: when the stored roster is non-empty, `generateState` returns `null`
for every props, so the merged state is the state it was given. -/
theorem generateState_populate_once (props : Props) (state : State)
    (h : state.components ≠ []) :
    ∃ logs,
      generateState props state = .ok (logs, none) ∧
      getDerivedStateFromProps props state = .ok (logs, none) ∧
      mergeDerived state none = state := by
  have hpos : state.components.length > 0 := List.length_pos.mpr h
  cases hc : props.children with
  | absent =>
    exact ⟨[.missingChildren], by simp [generateState, hc],
      by simp [getDerivedStateFromProps, generateState, hc], rfl⟩
  | single e =>
    exact ⟨[.singularChild], by simp [generateState, hc],
      by simp [getDerivedStateFromProps, generateState, hc], rfl⟩
  | seq es =>
    exact ⟨[], by simp [generateState, hc, hpos],
      by simp [getDerivedStateFromProps, generateState, hc, hpos], rfl⟩

/-- Witness of C7: a roster of 3 descriptors and props with 5 children. -/
theorem generateState_populate_once_witness :
    statePopulated.components ≠ [] ∧
    statePopulated.components.length = 3 ∧
    propsFive.children = .seq [childA, childB, childC, childB, childC] ∧
    generateState propsFive statePopulated = .ok ([], none) ∧
    (∃ logs,
      generateState propsFive statePopulated = .ok (logs, none) ∧
      getDerivedStateFromProps propsFive statePopulated = .ok (logs, none) ∧
      mergeDerived statePopulated none = statePopulated) :=
  ⟨by decide, rfl, rfl, rfl, generateState_populate_once propsFive statePopulated (by decide)⟩

/-! ## Inputs that are not a non-empty sequence -/

/-- C8: for every state, `generateState` returns `null` when children is
absent (with the missing-children diagnostic), when it is a single element
(with the singular-child diagnostic) and when it is an empty sequence (with
no diagnostic). -/
theorem generateState_no_sequence (props : Props) (state : State) (e : Element) :
    generateState { props with children := .absent } state
      = .ok ([.missingChildren], none) ∧
    generateState { props with children := .single e } state
      = .ok ([.singularChild], none) ∧
    generateState { props with children := .seq [] } state = .ok ([], none) := by
  refine ⟨rfl, rfl, ?_⟩
  simp [generateState]

/-- C9 on the code: for children absent or a single element, the reconciler
returns its diagnostic and no state change, and `render` then raises a
`TypeError` at `children.map`, so the render pass ends in a fault and yields
no list of nodes. -/
theorem renderPass_faults_without_sequence (props : Props) (state : State) (e : Element) :
    generateState { props with children := .absent } state
      = .ok ([.missingChildren], none) ∧
    render { props with children := .absent } state
      = .error (.typeError "cannot read properties of undefined (reading map)") ∧
    renderPass { props with children := .absent } state
      = .error (.typeError "cannot read properties of undefined (reading map)") ∧
    generateState { props with children := .single e } state
      = .ok ([.singularChild], none) ∧
    render { props with children := .single e } state
      = .error (.typeError "children.map is not a function") ∧
    renderPass { props with children := .single e } state
      = .error (.typeError "children.map is not a function") :=
  ⟨rfl, rfl, rfl, rfl, rfl, rfl⟩

/-! ## Deactivation -/

/-- C10: `deactivateGroup` sets `activeId` to `null` from every state,
applying it twice gives the same state as applying it once, and a render of
any children sequence after it marks no descriptor active. -/
theorem deactivateGroup_clears (state : State) (props : Props) (es : List Element) :
    (deactivate state).activeId = .null ∧
    (deactivate state).components = state.components ∧
    (deactivate state).prevDefaultActive = state.prevDefaultActive ∧
    deactivate (deactivate state) = deactivate state ∧
    ∃ logs nodes,
      render { props with children := .seq es } (deactivate state) = .ok (logs, nodes) ∧
      nodes.length = es.length ∧
      (∀ node ∈ nodes, node.isActive = false) ∧
      nodes.countP (fun node => node.isActive) = 0 := by
  have hall : ∀ node ∈ (mapChildren props.noNesting es 0).2.map
      (renderComponent { props with children := .seq es } (deactivate state).activeId),
      node.isActive = false := by
    intro node hnode
    obtain ⟨d, _, rfl⟩ := List.mem_map.mp hnode
    rfl
  refine ⟨rfl, rfl, rfl, rfl, _, _, render_seq _ _ es rfl, ?_, hall, ?_⟩
  · simp [mapChildren_length]
  · rw [List.countP_eq_zero]
    intro node hnode
    simp [hall node hnode]

end ActiveGroup

namespace ActiveGroup

/-! ## Frame lemmas of the handlers -/

theorem click_components (state : State) (j : Descriptor) :
    (click state j).components = state.components := by
  by_cases h : state.activeId = .num (j.id : Int)
  · simp [click, handleComponentClick_of_eq state j h, runEffects]
  · rw [click, handleComponentClick_of_ne state j h]
    cases j.onClick <;> simp [runEffects, applyPatch]

theorem sync_components (props : Props) (state : State) :
    (sync props state).components = state.components := by
  by_cases h : props.defaultActive = state.prevDefaultActive
  · rw [sync_of_eq props state h]
  · rw [sync_of_ne props state h]

theorem sync_activeId (props : Props) (state : State) :
    (sync props state).activeId = state.activeId ∨
    (sync props state).activeId = props.defaultActive := by
  by_cases h : props.defaultActive = state.prevDefaultActive
  · left; rw [sync_of_eq props state h]
  · right; rw [sync_of_ne props state h]

/-! ## Operation sequences -/

theorem clickAt_seq (props : Props) (state : State) (es : List Element) (pos : Nat)
    (h : props.children = .seq es) :
    clickAt props state pos = state ∨
    ∃ d : Descriptor, d.id = pos ∧ pos < es.length ∧ clickAt props state pos = click state d := by
  unfold clickAt
  rw [render_seq props state es h]
  simp only [List.getElem?_map, mapChildren_getElem?]
  cases he : es[pos]? with
  | none => left; simp
  | some e =>
    right
    refine ⟨(mapChild props.noNesting e (0 + pos)).2, ?_, ?_, ?_⟩
    · rw [mapChild_id]; omega
    · exact (List.getElem?_eq_some.mp he).1
    · simp [renderComponent_target]

theorem step_preserves (ps : Props × State) (es : List Element) (op : Op)
    (hc : ps.1.children = .seq es) (hinv : activeIdBelow es.length ps.2)
    (hop : op.inRange es.length = true) :
    (step ps op).1.children = .seq es ∧
    (step ps op).1.noNesting = ps.1.noNesting ∧
    (step ps op).2.components = ps.2.components ∧
    activeIdBelow es.length (step ps op).2 := by
  cases op with
  | clickChild pos =>
    refine ⟨hc, rfl, ?_, ?_⟩
    · show (clickAt ps.1 ps.2 pos).components = ps.2.components
      rcases clickAt_seq ps.1 ps.2 es pos hc with h | ⟨d, _, _, h⟩
      · rw [h]
      · rw [h, click_components]
    · show activeIdBelow es.length (clickAt ps.1 ps.2 pos)
      rcases clickAt_seq ps.1 ps.2 es pos hc with h | ⟨d, hd, hlt, h⟩
      · rw [h]; exact hinv
      · rw [h]
        right
        exact ⟨pos, hlt, by rw [click_activeId, hd]⟩
  | syncPass d =>
    refine ⟨hc, rfl, sync_components _ _, ?_⟩
    show activeIdBelow es.length (sync { ps.1 with defaultActive := d } ps.2)
    rcases sync_activeId { ps.1 with defaultActive := d } ps.2 with h | h
    · unfold activeIdBelow
      rw [h]
      exact hinv
    · cases d with
      | undefined => simp [Op.inRange] at hop
      | null => simp [Op.inRange] at hop
      | num m =>
        simp only [Op.inRange, decide_eq_true_eq] at hop
        right
        refine ⟨m.toNat, by omega, ?_⟩
        rw [h]
        show JSVal.num m = JSVal.num (m.toNat : Int)
        rw [Int.toNat_of_nonneg hop.1]
  | deactivateCall =>
    exact ⟨hc, rfl, rfl, Or.inl rfl⟩

theorem runOps_preserves (ops : List Op) (ps : Props × State) (es : List Element)
    (hc : ps.1.children = .seq es) (hinv : activeIdBelow es.length ps.2)
    (hops : ∀ op ∈ ops, op.inRange es.length = true) :
    (runOps ps ops).1.children = .seq es ∧
    (runOps ps ops).1.noNesting = ps.1.noNesting ∧
    (runOps ps ops).2.components = ps.2.components ∧
    activeIdBelow es.length (runOps ps ops).2 := by
  induction ops generalizing ps with
  | nil => exact ⟨hc, rfl, rfl, hinv⟩
  | cons op rest ih =>
    have h1 := step_preserves ps es op hc hinv (hops op (List.mem_cons_self _ _))
    have h2 := ih (step ps op) h1.1 h1.2.2.2
      (fun o ho => hops o (List.mem_cons_of_mem _ ho))
    refine ⟨h2.1, ?_, ?_, h2.2.2.2⟩
    · exact h2.2.1.trans h1.2.1
    · exact h2.2.2.1.trans h1.2.2.1

theorem activeIdInRoster_of_below (noNesting : Bool) (es : List Element) (state : State)
    (hcomp : state.components = (mapChildren noNesting es 0).2)
    (h : activeIdBelow es.length state) : activeIdInRoster state := by
  rcases h with h | ⟨k, hk, h⟩
  · exact Or.inl h
  · right
    have hmem : k ∈ (mapChildren noNesting es 0).2.map Descriptor.id := by
      rw [mapChildren_ids]
      exact List.mem_range'_1.mpr ⟨by omega, by omega⟩
    obtain ⟨d, hd, hid⟩ := List.mem_map.mp hmem
    exact ⟨d, by rw [hcomp]; exact hd, by rw [h, hid]⟩

end ActiveGroup

namespace ActiveGroup

/-! ## Counting the active descriptors -/

theorem countP_isActiveOf_eq_one (noNesting : Bool) (es : List Element) (start k : Nat)
    (h1 : start ≤ k) (h2 : k < start + es.length) :
    (mapChildren noNesting es start).2.countP (isActiveOf (.num (k : Int))) = 1 := by
  induction es generalizing start with
  | nil => simp at h2; omega
  | cons e rest ih =>
    simp only [mapChildren, List.countP_cons]
    by_cases hk : k = start
    · subst hk
      have hact : isActiveOf (.num (k : Int)) (mapChild noNesting e k).2 = true := by
        rw [isActiveOf_iff, mapChild_id]
      have h0 := countP_isActiveOf_of_lt (.num (k : Int)) k rfl
        (mapChildren noNesting rest (k + 1)).2
        (fun d hd => mapChildren_id_ge noNesting rest (k + 1) d hd)
      simp [h0, hact]
    · have hact : ¬ isActiveOf (.num (k : Int)) (mapChild noNesting e start).2 = true := by
        rw [isActiveOf_iff, mapChild_id]
        intro heq
        have : (k : Int) = (start : Int) := by injection heq
        omega
      have hlen : k < start + 1 + rest.length := by
        simp only [List.length_cons] at h2
        omega
      simp [hact, ih (start + 1) (by omega) hlen]

theorem activeCount_seq (props : Props) (state : State) (es : List Element)
    (h : props.children = .seq es) :
    activeCount props state =
      some ((mapChildren props.noNesting es 0).2.countP (isActiveOf state.activeId)) := by
  have hf : (fun node : WrapperNode => node.isActive) ∘ renderComponent props state.activeId
      = isActiveOf state.activeId := by
    funext d; rfl
  simp only [activeCount, activeVector, render_seq props state es h, Option.map_some',
    List.count_eq_countP, List.countP_map]
  congr 2
  funext d
  simp [renderComponent_isActive]

theorem activeCount_of_below (props : Props) (state : State) (es : List Element)
    (hc : props.children = .seq es) (h : activeIdBelow es.length state) :
    activeCount props state = some (if state.activeId = .null then 0 else 1) := by
  rw [activeCount_seq props state es hc]
  rcases h with h | ⟨k, hk, h⟩
  · rw [h]
    simp only [if_true]
    congr 1
    rw [List.countP_eq_zero]
    intro d _
    simp [isActiveOf, idEq]
  · rw [h]
    simp only [reduceCtorEq, if_false]
    congr 1
    exact countP_isActiveOf_eq_one props.noNesting es 0 k (by omega) (by omega)

/-- With an integer `defaultActive` in range at population and at every
sync pass, every reachable state renders exactly one active wrapper, or none
when `activeId` is `null` (which only `deactivateGroup` writes): the part of
C11 the code satisfies. -/
theorem activeCount_in_range (props : Props) (state : State) (e : Element)
    (rest : List Element) (k : Nat) (ops : List Op)
    (hc : props.children = .seq (e :: rest)) (hs : state.components = [])
    (hk : props.defaultActive = .num (k : Int)) (hlt : k < (e :: rest).length)
    (hops : ∀ op ∈ ops, op.inRange (e :: rest).length = true) :
    ∃ logs populated,
      generateState props state = .ok (logs, some populated) ∧
      activeCount props populated = some 1 ∧
      activeCount (runOps (props, populated) ops).1 (runOps (props, populated) ops).2 =
        some (if (runOps (props, populated) ops).2.activeId = .null then 0 else 1) := by
  have hinv : activeIdBelow (e :: rest).length
      { components := (mapChildren props.noNesting (e :: rest) 0).2
        activeId := orZero props.defaultActive
        prevDefaultActive := orZero props.defaultActive } := by
    right
    exact ⟨k, hlt, by rw [hk, orZero_num]⟩
  refine ⟨_, _, generateState_seq props state e rest hc hs, ?_, ?_⟩
  · rw [activeCount_of_below props _ (e :: rest) hc hinv]
    simp [hk, orZero_num]
  · have h := runOps_preserves ops (props, _) (e :: rest) hc hinv hops
    exact activeCount_of_below _ _ (e :: rest) h.1 h.2.2.2

/-- C11 at the failing input: the group `[A, B, C]` with `defaultActive`
omitted is populated with one active child; the first sync pass, run with the
same props and with no call of `deactivateGroup`, leaves `activeId =
undefined`, and the render then marks zero descriptors active. -/
theorem activeCount_zero_after_sync_without_defaultActive :
    ∃ logs populated,
      generateState propsNoDefault initialState = .ok (logs, some populated) ∧
      activeCount propsNoDefault populated = some 1 ∧
      (runOps (propsNoDefault, populated) [.syncPass .undefined]).1 = propsNoDefault ∧
      (runOps (propsNoDefault, populated) [.syncPass .undefined]).2.activeId = .undefined ∧
      activeVector propsNoDefault
        (runOps (propsNoDefault, populated) [.syncPass .undefined]).2
          = some [false, false, false] ∧
      activeCount propsNoDefault
        (runOps (propsNoDefault, populated) [.syncPass .undefined]).2 = some 0 :=
  ⟨_, _, rfl, rfl, rfl, rfl, rfl, rfl⟩

/-! ## The active index and the stored roster -/

/-- C12 as stated fails: a supplied `defaultActive = 7` over three children
is stored as `activeId = 7` at population, which is neither `null` nor the id
of a descriptor of the stored roster. -/
theorem activeId_outside_roster_counterexample :
    ∃ logs populated,
      generateState { propsABC with defaultActive := .num 7 } initialState
        = .ok (logs, some populated) ∧
      populated.components.map Descriptor.id = [0, 1, 2] ∧
      populated.activeId = .num 7 ∧
      ¬ activeIdInRoster populated :=
  ⟨_, _, rfl, rfl, rfl, by unfold activeIdInRoster; decide⟩

/-- C12 amended: when the children are a non-empty sequence of `N` elements
and `defaultActive` is an integer in `0..N-1` at population and at every sync
pass, then in the populated state and in every state reached from it by
clicks on rendered children, sync passes and `deactivateGroup` the stored
roster is the one built at population and `activeId` is `null` or the id of
one of its descriptors. -/
theorem activeId_in_roster_in_range (props : Props) (state : State) (e : Element)
    (rest : List Element) (k : Nat) (ops : List Op)
    (hc : props.children = .seq (e :: rest)) (hs : state.components = [])
    (hk : props.defaultActive = .num (k : Int)) (hlt : k < (e :: rest).length)
    (hops : ∀ op ∈ ops, op.inRange (e :: rest).length = true) :
    ∃ logs populated,
      generateState props state = .ok (logs, some populated) ∧
      activeIdInRoster populated ∧
      (runOps (props, populated) ops).2.components = populated.components ∧
      activeIdInRoster (runOps (props, populated) ops).2 := by
  have hinv : activeIdBelow (e :: rest).length
      { components := (mapChildren props.noNesting (e :: rest) 0).2
        activeId := orZero props.defaultActive
        prevDefaultActive := orZero props.defaultActive } := by
    right
    exact ⟨k, hlt, by rw [hk, orZero_num]⟩
  have h := runOps_preserves ops (props, _) (e :: rest) hc hinv hops
  refine ⟨_, _, generateState_seq props state e rest hc hs, ?_, h.2.2.1, ?_⟩
  · exact activeIdInRoster_of_below props.noNesting (e :: rest) _ rfl hinv
  · exact activeIdInRoster_of_below props.noNesting (e :: rest) _ h.2.2.1 h.2.2.2

/-- Witness of C12 amended: `[A, B, C]` with `defaultActive = 1`, then a
click on `A`, an unchanged sync pass, a deactivation, a sync pass with
`defaultActive = 2` and a click on `C`. -/
theorem activeId_in_roster_in_range_witness :
    propsABC.children = .seq (childA :: [childB, childC]) ∧
    initialState.components = [] ∧
    propsABC.defaultActive = .num ((1 : Nat) : Int) ∧
    1 < (childA :: [childB, childC]).length ∧
    (∀ op ∈ [Op.clickChild 0, .syncPass (.num 1), .deactivateCall, .syncPass (.num 2),
        .clickChild 2], op.inRange (childA :: [childB, childC]).length = true) ∧
    ∃ logs populated,
      generateState propsABC initialState = .ok (logs, some populated) ∧
      activeIdInRoster populated ∧
      (runOps (propsABC, populated)
        [Op.clickChild 0, .syncPass (.num 1), .deactivateCall, .syncPass (.num 2),
          .clickChild 2]).2.components = populated.components ∧
      activeIdInRoster (runOps (propsABC, populated)
        [Op.clickChild 0, .syncPass (.num 1), .deactivateCall, .syncPass (.num 2),
          .clickChild 2]).2 :=
  ⟨rfl, rfl, rfl, by decide, by decide,
    activeId_in_roster_in_range propsABC initialState childA [childB, childC] 1
      [Op.clickChild 0, .syncPass (.num 1), .deactivateCall, .syncPass (.num 2),
        .clickChild 2] rfl rfl rfl (by decide) (by decide)⟩

end ActiveGroup

namespace ActiveGroup

/-! ## What `generateComponentMap` builds -/

theorem generateComponentMap_seq (props : Props) (es : List Element)
    (h : props.children = .seq es) :
    generateComponentMap props = .ok (mapChildren props.noNesting es 0) := by
  simp [generateComponentMap, h]

theorem mapChild_nested (link c : Element) (pos : Nat) (h : link.children = some c) :
    mapChild false link pos =
      ([], { id := pos, parent := some link, component := c, onClick := link.onClick }) := by
  simp [mapChild, h]

theorem mapChild_unnested (link : Element) (pos : Nat) (h : link.children = none) :
    mapChild false link pos =
      ([.ambiguousNesting],
        { id := pos, parent := none, component := link, onClick := link.onClick }) := by
  simp [mapChild, h]

theorem mapChild_noNesting (link : Element) (pos : Nat) :
    mapChild true link pos =
      ([], { id := pos, parent := none, component := link, onClick := link.onClick }) := by
  simp [mapChild]

theorem mapChildren_logs_nested (es : List Element) (start : Nat)
    (hall : ∀ e ∈ es, ∃ c, e.children = some c) :
    (mapChildren false es start).1 = [] := by
  induction es generalizing start with
  | nil => rfl
  | cons e rest ih =>
    obtain ⟨c, hc⟩ := hall e (List.mem_cons_self _ _)
    simp [mapChildren, mapChild_nested e c start hc,
      ih (start + 1) (fun x hx => hall x (List.mem_cons_of_mem _ hx))]

theorem mapChildren_logs_noNesting (es : List Element) (start : Nat) :
    (mapChildren true es start).1 = [] := by
  induction es generalizing start with
  | nil => rfl
  | cons e rest ih => simp [mapChildren, mapChild_noNesting, ih (start + 1)]

theorem mapChildren_logs_unnested (es : List Element) (start i : Nat) (e : Element)
    (he : es[i]? = some e) (hnone : e.children = none) :
    Diagnostic.ambiguousNesting ∈ (mapChildren false es start).1 := by
  induction es generalizing start i with
  | nil => simp at he
  | cons x rest ih =>
    cases i with
    | zero =>
      simp only [List.getElem?_cons_zero, Option.some.injEq] at he
      subst he
      simp [mapChildren, mapChild_unnested x start hnone]
    | succ k =>
      simp only [List.getElem?_cons_succ] at he
      simp only [mapChildren, List.mem_append]
      exact Or.inr (ih (start + 1) k he)

/-- C13: with nesting enabled and every child wrapping one nested element,
the descriptor at every position `i` has the nested element of child `i` as
`component`, child `i` itself as `parent` and child `i`'s `onClick` as
`onClick`; no warning is issued. -/
theorem generateComponentMap_nested (props : Props) (es : List Element)
    (hc : props.children = .seq es) (hn : props.noNesting = false)
    (hall : ∀ e ∈ es, ∃ c, e.children = some c) :
    ∃ ds,
      generateComponentMap props = .ok ([], ds) ∧
      ds.length = es.length ∧
      ∀ (i : Nat) (e : Element), es[i]? = some e →
        ∃ d, ds[i]? = some d ∧ d.id = i ∧ some d.component = e.children ∧
          d.parent = some e ∧ d.onClick = e.onClick := by
  refine ⟨(mapChildren false es 0).2, ?_, mapChildren_length _ _ _, ?_⟩
  · rw [generateComponentMap_seq props es hc, hn]
    exact congrArg Except.ok
      (Prod.ext (mapChildren_logs_nested es 0 hall) rfl :
        mapChildren false es 0 = ([], (mapChildren false es 0).2))
  · intro i e he
    obtain ⟨c, hch⟩ := hall e (List.mem_iff_getElem?.mpr ⟨i, he⟩)
    refine ⟨(mapChild false e (0 + i)).2, ?_, ?_, ?_, ?_, ?_⟩
    · rw [mapChildren_getElem?, he]; rfl
    · rw [mapChild_id]; omega
    · rw [mapChild_nested e c _ hch, hch]
    · rw [mapChild_nested e c _ hch]
    · rw [mapChild_nested e c _ hch]

/-- Witness of C13 on `[A, B]`, both wrapping one nested element. -/
theorem generateComponentMap_nested_witness :
    ({ propsABC with children := .seq [childA, childB] } : Props).children
      = .seq [childA, childB] ∧
    ({ propsABC with children := .seq [childA, childB] } : Props).noNesting = false ∧
    (∀ e ∈ [childA, childB], ∃ c, e.children = some c) ∧
    ∃ ds,
      generateComponentMap { propsABC with children := .seq [childA, childB] }
        = .ok ([], ds) ∧
      ds.length = [childA, childB].length ∧
      ∀ (i : Nat) (e : Element), [childA, childB][i]? = some e →
        ∃ d, ds[i]? = some d ∧ d.id = i ∧ some d.component = e.children ∧
          d.parent = some e ∧ d.onClick = e.onClick :=
  have hall : ∀ e ∈ [childA, childB], ∃ c, e.children = some c := by
    intro e he
    simp only [List.mem_cons, List.mem_singleton, List.not_mem_nil, or_false] at he
    rcases he with rfl | rfl
    · exact ⟨_, rfl⟩
    · exact ⟨_, rfl⟩
  ⟨rfl, rfl, hall,
    generateComponentMap_nested { propsABC with children := .seq [childA, childB] }
      [childA, childB] rfl rfl hall⟩

/-- C14: with nesting disabled the descriptor at every position `i` has
child `i` itself as `component`, no `parent`, and child `i`'s `onClick` (which
may be absent) as `onClick`; no warning is issued. -/
theorem generateComponentMap_noNesting (props : Props) (es : List Element) :
    ∃ ds,
      generateComponentMap { props with children := .seq es, noNesting := true }
        = .ok ([], ds) ∧
      ds.length = es.length ∧
      ∀ (i : Nat) (e : Element), es[i]? = some e →
        ds[i]? = some { id := i, parent := none, component := e, onClick := e.onClick } := by
  refine ⟨(mapChildren true es 0).2, ?_, mapChildren_length _ _ _, ?_⟩
  · rw [generateComponentMap_seq _ es rfl]
    exact congrArg Except.ok
      (Prod.ext (mapChildren_logs_noNesting es 0) rfl :
        mapChildren true es 0 = ([], (mapChildren true es 0).2))
  · intro i e he
    rw [mapChildren_getElem?, he]
    simp [mapChild_noNesting]

/-- C15: with nesting enabled, a child at position `i` without a nested
element makes `generateComponentMap` issue the ambiguous-nesting warning and
yields at position `i` the very descriptor the map built with nesting
disabled has there (the child as `component`, no `parent`, same id and
`onClick`); every child that has a nested element still gets its nested
descriptor. -/
theorem generateComponentMap_recovers (props : Props) (es : List Element) (i : Nat)
    (e : Element) (he : es[i]? = some e) (hnone : e.children = none) :
    ∃ logs nested flatLogs flat,
      generateComponentMap { props with children := .seq es, noNesting := false }
        = .ok (logs, nested) ∧
      generateComponentMap { props with children := .seq es, noNesting := true }
        = .ok (flatLogs, flat) ∧
      Diagnostic.ambiguousNesting ∈ logs ∧
      nested[i]? = flat[i]? ∧
      nested[i]? = some { id := i, parent := none, component := e, onClick := e.onClick } ∧
      ∀ (j : Nat) (x c : Element), es[j]? = some x → x.children = some c →
        nested[j]? = some { id := j, parent := some x, component := c, onClick := x.onClick } := by
  refine ⟨_, _, _, _, generateComponentMap_seq _ es rfl, generateComponentMap_seq _ es rfl,
    mapChildren_logs_unnested es 0 i e he hnone, ?_, ?_, ?_⟩
  · show (mapChildren false es 0).2[i]? = (mapChildren true es 0).2[i]?
    rw [mapChildren_getElem?, mapChildren_getElem?, he]
    simp [mapChild_unnested e _ hnone, mapChild_noNesting]
  · show (mapChildren false es 0).2[i]? = _
    rw [mapChildren_getElem?, he]
    simp [mapChild_unnested e _ hnone]
  · intro j x c hx hxc
    show (mapChildren false es 0).2[j]? = _
    rw [mapChildren_getElem?, hx]
    simp [mapChild_nested x c _ hxc]

/-- Witness of C15: in `[A, B, C]` the child `C` at position 2 has no nested
element. -/
theorem generateComponentMap_recovers_witness :
    [childA, childB, childC][2]? = some childC ∧
    childC.children = none ∧
    generateComponentMap propsABC = .ok ([.ambiguousNesting],
      [ { id := 0, parent := some childA, component := .leaf "a" .absent, onClick := .fn "f" },
        { id := 1, parent := some childB, component := .leaf "b" .absent, onClick := .absent },
        { id := 2, parent := none, component := childC, onClick := .absent } ]) ∧
    ∃ logs nested flatLogs flat,
      generateComponentMap
        { propsABC with children := .seq [childA, childB, childC], noNesting := false }
        = .ok (logs, nested) ∧
      generateComponentMap
        { propsABC with children := .seq [childA, childB, childC], noNesting := true }
        = .ok (flatLogs, flat) ∧
      Diagnostic.ambiguousNesting ∈ logs ∧
      nested[2]? = flat[2]? ∧
      nested[2]? = some
        { id := 2, parent := none, component := childC, onClick := childC.onClick } ∧
      ∀ (j : Nat) (x c : Element), [childA, childB, childC][j]? = some x →
        x.children = some c →
        nested[j]? = some { id := j, parent := some x, component := c, onClick := x.onClick } :=
  ⟨rfl, rfl, rfl,
    generateComponentMap_recovers propsABC [childA, childB, childC] 2 childC rfl rfl⟩

end ActiveGroup

namespace ActiveGroup

/-! ## The scenario of three children -/

theorem ownHandlerCalls_clickEvent (h : OnClick) :
    ∀ call ∈ ownHandlerCalls h, call.2 = CallArg.clickEvent := by
  cases h <;> simp [ownHandlerCalls]

theorem ownCalls_clickEvent (node : WrapperNode) (target : ClickTarget) :
    ∀ call ∈ ownCalls node target, call.2 = CallArg.clickEvent := by
  intro call hcall
  cases target with
  | onWrapper => simp [ownCalls] at hcall
  | onParent =>
    cases hp : node.parent with
    | none => simp [ownCalls, hp] at hcall
    | some w =>
      simp only [ownCalls, hp] at hcall
      exact ownHandlerCalls_clickEvent _ call hcall
  | onComponent =>
    simp only [ownCalls, List.mem_append] at hcall
    rcases hcall with hcall | hcall
    · exact ownHandlerCalls_clickEvent _ call hcall
    · cases hp : node.parent with
      | none => simp [hp] at hcall
      | some w =>
        simp only [hp] at hcall
        exact ownHandlerCalls_clickEvent _ call hcall

/-- C16 as stated fails on the mounted group: for `[A, B, C]` with
`A.onClick = f` and `defaultActive = 1`, a click on `A` calls `f` twice, once
with the click event through the `onClick` prop `render` leaves on the clone
of `A` and once with the primary component through `handleComponentClick`;
after the sync pass a second click on `A` calls `f` again, with the click
event, although the claim says it does not invoke `f`. -/
theorem scenario_three_children_counterexample :
    ∃ logs populated nodes,
      renderPass propsABC initialState = .ok (logs, populated, nodes) ∧
      nodes.map (fun node => node.isActive) = [false, true, false] ∧
      nodes.map (fun node => node.parent.map (fun w => w.element.onClick))
        = [some (.fn "f"), some .absent, none] ∧
      (mountedClick propsABC populated 0 .onParent).1 =
        [("f", .clickEvent), ("f", .component (.leaf "a" .absent))] ∧
      activeVector propsABC
        (sync propsABC (mountedClick propsABC populated 0 .onParent).2)
        = some [true, false, false] ∧
      (mountedClick propsABC
        (sync propsABC (mountedClick propsABC populated 0 .onParent).2) 0 .onParent).1 =
        [("f", .clickEvent)] ∧
      ¬ ((mountedClick propsABC populated 0 .onParent).1.length = 1 ∧
         (mountedClick propsABC
          (sync propsABC (mountedClick propsABC populated 0 .onParent).2) 0 .onParent).1
            = []) :=
  ⟨_, _, _, rfl, rfl, rfl, rfl, rfl, rfl, by decide⟩

set_option maxHeartbeats 8000000 in
/-- C16 amended: for children `[A, B, C]` with `A.onClick = f` and
`defaultActive = 1`, the first render pass from the mount state gives the
flags `[false, true, false]`; a click on `A`, wherever inside its wrapper it
lands, makes `handleComponentClick` call `f` exactly once with the primary
component of `A`, after the calls of the `onClick` props left on the clones
(each made with the click event) and before the state update, and after the
sync pass with the same props the flags are `[true, false, false]`; a second
click on `A` makes `handleComponentClick` call nothing, so the only calls are
again those of the clones' own `onClick` props, the state is unchanged and the
flags stay `[true, false, false]`. -/
theorem scenario_three_children (props : Props) (a b c : Element) (f : String)
    (target : ClickTarget)
    (hc : props.children = .seq [a, b, c]) (hd : props.defaultActive = .num 1)
    (ha : a.onClick = .fn f) :
    ∃ logs populated nodes first,
      renderPass props initialState = .ok (logs, populated, nodes) ∧
      nodes.map (fun node => node.isActive) = [false, true, false] ∧
      nodes[0]? = some first ∧
      first.target = (mapChild props.noNesting a 0).2 ∧
      handleComponentClick populated first.target =
        [Effect.invoke f first.target.component,
         Effect.setState { activeId := some (.num 0), prevDefaultActive := none }] ∧
      mountedClick props populated 0 target =
        (ownCalls first target ++ [(f, .component first.target.component)],
          click populated first.target) ∧
      (∀ call ∈ ownCalls first target, call.2 = CallArg.clickEvent) ∧
      ownCalls first .onWrapper = [] ∧
      clickAt props populated 0 = click populated first.target ∧
      activeVector props (sync props (click populated first.target))
        = some [true, false, false] ∧
      handleComponentClick (sync props (click populated first.target)) first.target = [] ∧
      mountedClick props (sync props (click populated first.target)) 0 target =
        (ownCalls first target, sync props (click populated first.target)) ∧
      activeVector props
        (sync props
          (mountedClick props (sync props (click populated first.target)) 0 target).2)
        = some [true, false, false] := by
  obtain ⟨ch, nn, da, cs, ccs⟩ := props
  simp only at hc hd
  subst hc hd
  have hnil : ∀ (calls : List (String × CallArg)) (s : State),
      (calls ++ [], s) = (calls, s) := by
    intro calls s
    rw [List.append_nil]
  cases nn <;> cases a <;> cases b <;> cases c <;>
    simp only [Element.onClick] at ha <;> subst ha <;> cases target <;>
    exact ⟨_, _, _, _, rfl, rfl, rfl, rfl, rfl, rfl, ownCalls_clickEvent _ _, rfl, rfl, rfl,
      rfl, hnil _ _, rfl⟩

/-- Witness of C16 amended on the group `propsABC`, the click landing on
the clone of `A`. -/
theorem scenario_three_children_witness :
    propsABC.children = .seq [childA, childB, childC] ∧
    propsABC.defaultActive = .num 1 ∧
    childA.onClick = .fn "f" ∧
    ∃ logs populated nodes first,
      renderPass propsABC initialState = .ok (logs, populated, nodes) ∧
      nodes.map (fun node => node.isActive) = [false, true, false] ∧
      nodes[0]? = some first ∧
      first.target = (mapChild propsABC.noNesting childA 0).2 ∧
      handleComponentClick populated first.target =
        [Effect.invoke "f" first.target.component,
         Effect.setState { activeId := some (.num 0), prevDefaultActive := none }] ∧
      mountedClick propsABC populated 0 .onParent =
        (ownCalls first .onParent ++ [("f", .component first.target.component)],
          click populated first.target) ∧
      (∀ call ∈ ownCalls first .onParent, call.2 = CallArg.clickEvent) ∧
      ownCalls first .onWrapper = [] ∧
      clickAt propsABC populated 0 = click populated first.target ∧
      activeVector propsABC (sync propsABC (click populated first.target))
        = some [true, false, false] ∧
      handleComponentClick (sync propsABC (click populated first.target)) first.target
        = [] ∧
      mountedClick propsABC (sync propsABC (click populated first.target)) 0 .onParent =
        (ownCalls first .onParent, sync propsABC (click populated first.target)) ∧
      activeVector propsABC
        (sync propsABC
          (mountedClick propsABC (sync propsABC (click populated first.target)) 0
            .onParent).2)
        = some [true, false, false] :=
  ⟨rfl, rfl, rfl,
    scenario_three_children propsABC childA childB childC "f" .onParent rfl rfl rfl⟩

end ActiveGroup

namespace ActiveGroup

/-! ## Shape of the component map and of the rendered list -/

theorem mapChild_component (noNesting : Bool) (link : Element) (pos : Nat) :
    (mapChild noNesting link pos).2.component = link ∨
    some (mapChild noNesting link pos).2.component = link.children := by
  cases noNesting
  · cases hch : link.children with
    | none => left; rw [mapChild_unnested link pos hch]
    | some c => right; rw [mapChild_nested link c pos hch]
  · left; rw [mapChild_noNesting]

theorem mapChild_onClick (noNesting : Bool) (link : Element) (pos : Nat) :
    (mapChild noNesting link pos).2.onClick = link.onClick := by
  cases noNesting
  · cases hch : link.children with
    | none => rw [mapChild_unnested link pos hch]
    | some c => rw [mapChild_nested link c pos hch]
  · rw [mapChild_noNesting]

/-- C17: for every children sequence and either value of the nesting flag,
`generateComponentMap` returns one descriptor per child in input order; the
descriptor at position `i` has id `i`, child `i`'s `onClick`, and child `i` or
its nested element as `component`; the result depends on nothing but the
children and the nesting flag, so two calls on the same input agree. -/
theorem generateComponentMap_positional (props : Props) (es : List Element) :
    ∃ logs ds,
      generateComponentMap { props with children := .seq es } = .ok (logs, ds) ∧
      ds.length = es.length ∧
      ds.map Descriptor.id = List.range es.length ∧
      (∀ (i : Nat) (e : Element), es[i]? = some e →
        ∃ d, ds[i]? = some d ∧ d = (mapChild props.noNesting e i).2 ∧ d.id = i ∧
          d.onClick = e.onClick ∧ (d.component = e ∨ some d.component = e.children)) ∧
      (∀ other : Props, other.children = .seq es → other.noNesting = props.noNesting →
        generateComponentMap other = .ok (logs, ds)) := by
  refine ⟨_, _, generateComponentMap_seq _ es rfl, mapChildren_length _ _ _, ?_, ?_, ?_⟩
  · rw [mapChildren_ids, List.range_eq_range']
  · intro i e he
    refine ⟨(mapChild props.noNesting e i).2, ?_, rfl, mapChild_id _ _ _,
      mapChild_onClick _ _ _, mapChild_component _ _ _⟩
    show (mapChildren props.noNesting es 0).2[i]? = _
    rw [mapChildren_getElem?, he]
    simp
  · intro other hch hnn
    rw [generateComponentMap_seq other es hch, hnn]

theorem renderComponent_parent (props : Props) (activeId : JSVal) (d : Descriptor) :
    ((renderComponent props activeId d).parent.isSome = true ↔
      (props.noNesting = false ∧ d.parent.isSome = true)) ∧
    (∀ w, (renderComponent props activeId d).parent = some w →
      some w.element = d.parent ∧
      w.child = (renderComponent props activeId d).component ∧
      w.isActive = (renderComponent props activeId d).component.isActive) := by
  cases hnn : props.noNesting <;> cases hp : d.parent <;>
    simp [renderComponent, hnn, hp]

/-- C18: for every state and every children sequence, `render` returns one
wrapper per child, in order, keyed by the descriptor id, built from the
component map of the current props whatever roster the state stores; a parent
clone is present exactly when nesting is enabled and the descriptor has a
parent, its single child is the cloned component, and both carry the same
`isActive` as the wrapper. -/
theorem render_one_node_per_child (props : Props) (state : State) (es : List Element) :
    ∃ logs nodes,
      render { props with children := .seq es } state = .ok (logs, nodes) ∧
      generateComponentMap { props with children := .seq es }
        = .ok (logs, nodes.map (fun node => node.target)) ∧
      nodes.length = es.length ∧
      nodes.map (fun node => node.key) = List.range es.length ∧
      (∀ stored : List Descriptor,
        render { props with children := .seq es } { state with components := stored }
          = .ok (logs, nodes)) ∧
      (∀ (i : Nat) (node : WrapperNode), nodes[i]? = some node →
        node.key = i ∧ node.target.id = i ∧
        node.component.element = node.target.component ∧
        node.component.isActive = node.isActive ∧
        node.component.customComponentStyles = props.customComponentStyles ∧
        (node.parent.isSome = true ↔
          (props.noNesting = false ∧ node.target.parent.isSome = true)) ∧
        (∀ w, node.parent = some w →
          some w.element = node.target.parent ∧ w.child = node.component ∧
          w.isActive = node.component.isActive)) := by
  have hkey : (fun node : WrapperNode => node.key) ∘
      renderComponent { props with children := .seq es } state.activeId = Descriptor.id := by
    funext d; rfl
  have htarget : (fun node : WrapperNode => node.target) ∘
      renderComponent { props with children := .seq es } state.activeId = id := by
    funext d; rfl
  refine ⟨_, _, render_seq _ _ es rfl, ?_, ?_, ?_, ?_, ?_⟩
  · rw [generateComponentMap_seq _ es rfl, List.map_map, htarget, List.map_id]
  · simp [mapChildren_length]
  · rw [List.map_map, hkey, mapChildren_ids, List.range_eq_range']
  · intro stored
    exact render_seq _ _ es rfl
  · intro i node hnode
    rw [List.getElem?_map, mapChildren_getElem?] at hnode
    cases he : es[i]? with
    | none => simp [he] at hnode
    | some e =>
    simp only [he, Option.map_some', Option.some.injEq] at hnode
    subst hnode
    have hid : (mapChild props.noNesting e (0 + i)).2.id = i := by
      rw [mapChild_id]; omega
    exact ⟨hid, hid, rfl, rfl, rfl, (renderComponent_parent _ _ _).1,
      (renderComponent_parent _ _ _).2⟩

/-! ## Idempotence of the sync pass and frame of the handlers -/

/-- C19: for every state and props, a second sync pass with the same props
changes nothing; after any sync pass `prevDefaultActive` equals
`props.defaultActive`, so `componentDidUpdate` run again issues no
`setState`. -/
theorem sync_idempotent (props : Props) (state : State) :
    sync props (sync props state) = sync props state ∧
    (sync props state).prevDefaultActive = props.defaultActive ∧
    componentDidUpdate props (sync props state) = [] := by
  have hprev : (sync props state).prevDefaultActive = props.defaultActive := by
    by_cases h : props.defaultActive = state.prevDefaultActive
    · rw [sync_of_eq props state h, h]
    · rw [sync_of_ne props state h]
  refine ⟨sync_of_eq props _ hprev.symm, hprev, ?_⟩
  simp [componentDidUpdate, hprev]

/-- C20: `handleComponentClick` and `deactivateGroup` leave the stored
roster and `prevDefaultActive` as they were, and the sync pass leaves the
stored roster as it was; no `setState` of these handlers writes
`components`. -/
theorem handlers_frame (props : Props) (state : State) (j : Descriptor) :
    (click state j).components = state.components ∧
    (click state j).prevDefaultActive = state.prevDefaultActive ∧
    (deactivate state).components = state.components ∧
    (deactivate state).prevDefaultActive = state.prevDefaultActive ∧
    (sync props state).components = state.components ∧
    (∀ patch, Effect.setState patch ∈ handleComponentClick state j ++ deactivateGroup →
      patch.prevDefaultActive = none) ∧
    (∀ effects : List Effect, (runEffects state effects).components = state.components) := by
  refine ⟨click_components state j, click_prevDefaultActive state j, rfl, rfl,
    sync_components props state, ?_, ?_⟩
  · intro patch hmem
    rw [List.mem_append] at hmem
    rcases hmem with hmem | hmem
    · unfold handleComponentClick at hmem
      split at hmem
      · simp at hmem
      · rw [List.mem_append] at hmem
        rcases hmem with hmem | hmem
        · cases hoc : j.onClick <;> simp [hoc] at hmem
        · simp only [List.mem_singleton, Effect.setState.injEq] at hmem
          rw [hmem]
    · simp only [deactivateGroup, List.mem_singleton, Effect.setState.injEq] at hmem
      rw [hmem]
  · intro effects
    induction effects generalizing state with
    | nil => rfl
    | cons eff rest ih =>
      cases eff with
      | invoke f arg => exact ih state
      | setState patch => exact (ih (applyPatch state patch)).trans rfl

end ActiveGroup
